import Mathlib

/-!
Shallow embedding, in Lean 4, of the retrieval and generation pipeline of the
qazcode-nu submission (files `src/retriever.py` and `src/generator.py`),
together with theorems settling the frozen specification claims.

Python strings are modelled as Lean `String`s (lists of unicode code points);
Python floats arising from exact fractions are modelled as `ℚ`.
-/

/-- Characters matched by the Python character class `[а-яёa-z0-9]` used by
all tokenizers in the code base (lowercase latin, lowercase cyrillic, digits). -/
def isTokChar (c : Char) : Bool :=
  (97 ≤ c.toNat && c.toNat ≤ 122) || (48 ≤ c.toNat && c.toNat ≤ 57) ||
  (0x430 ≤ c.toNat && c.toNat ≤ 0x44F) || (c.toNat = 0x451)

/-- Model of Python `str.lower()` restricted to the alphabets the code touches:
ASCII `A-Z` and cyrillic `А-Я`/`Ё` map to their lowercase forms, everything
else is unchanged. -/
def pyLowerChar (c : Char) : Char :=
  if 65 ≤ c.toNat ∧ c.toNat ≤ 90 then Char.ofNat (c.toNat + 32)
  else if 0x410 ≤ c.toNat ∧ c.toNat ≤ 0x42F then Char.ofNat (c.toNat + 0x20)
  else if c.toNat = 0x401 then Char.ofNat 0x451
  else c

/-- Model of Python `str.upper()` restricted to the same alphabets: ASCII
`a-z` and cyrillic `а-я`/`ё` map to their uppercase forms. -/
def pyUpperChar (c : Char) : Char :=
  if 97 ≤ c.toNat ∧ c.toNat ≤ 122 then Char.ofNat (c.toNat - 32)
  else if 0x430 ≤ c.toNat ∧ c.toNat ≤ 0x44F then Char.ofNat (c.toNat - 0x20)
  else if c.toNat = 0x451 then Char.ofNat 0x401
  else c

/-- Python lowercasing of a whole string. -/
def pyLower (s : String) : String := String.mk (s.toList.map pyLowerChar)

/-- ASCII whitespace, the characters stripped by `str.strip()` and matched by
the regex class `\s` on the inputs the code handles (space, tab, newline,
carriage return, vertical tab, form feed). -/
def isPyWs (c : Char) : Bool :=
  c.toNat = 32 || c.toNat = 9 || c.toNat = 10 || c.toNat = 13 ||
  c.toNat = 11 || c.toNat = 12

/-- Model of Python `str.strip()`: drop leading and trailing whitespace. -/
def pyStripList (l : List Char) : List Char :=
  ((l.dropWhile isPyWs).reverse.dropWhile isPyWs).reverse

/-- Model of Python `str.strip()` on strings. -/
def pyStrip (s : String) : String := String.mk (pyStripList s.toList)

/-- Auxiliary tokenizer: accumulate the current run of token characters
(`acc`, reversed) while scanning the character list. -/
def tokenRunsAux (acc : List Char) : List Char → List String
  | [] => if acc.isEmpty then [] else [String.mk acc.reverse]
  | c :: cs =>
    if isTokChar c then tokenRunsAux (c :: acc) cs
    else if acc.isEmpty then tokenRunsAux [] cs
    else String.mk acc.reverse :: tokenRunsAux [] cs

/-- Model of `re.findall(r'[а-яёa-z0-9]+', s)`: the maximal runs of token
characters of `s`, in order. -/
def tokenRuns (s : String) : List String := tokenRunsAux [] s.toList

/-- Decide whether `needle` occurs as a contiguous sub-list of `hay`;
models the Python substring test `needle in hay`. -/
def subOf (needle : List Char) : List Char → Bool
  | [] => needle.isEmpty
  | c :: cs => needle.isPrefixOf (c :: cs) || subOf needle cs

/-- Python `needle in hay` on strings. -/
def strContains (hay needle : String) : Bool := subOf needle.toList hay.toList

/-- Characters kept by the final canonicalization filter `[A-Z0-9]`. -/
def isUpperAlnum (c : Char) : Bool :=
  (65 ≤ c.toNat && c.toNat ≤ 90) || (48 ≤ c.toNat && c.toNat ≤ 57)

/-- Embedding of `HybridRetriever._canon` (src/retriever.py lines 384-387):
uppercase, strip surrounding whitespace, delete every whitespace character and
dot (`re.sub(r"[\s.]", "", c)`), then delete every remaining character outside
`A-Z0-9` (`re.sub(r"[^A-Z0-9]", "", c)`). -/
def canon (code : String) : String :=
  String.mk ((((code.toList.map pyUpperChar) |> pyStripList).filter
    (fun c => !(isPyWs c || c.toNat = 46))).filter isUpperAlnum)

/-- Python dict lookup with default, `m.get(k, d)`, for a dict modelled as an
insertion-ordered association list. -/
def lookupD {β : Type} (m : List (String × β)) (k : String) (d : β) : β :=
  ((m.find? (fun kv => kv.1 == k)).map Prod.snd).getD d

/-- Embedding of the `ICD_DESCRIPTIONS` table (src/generator.py lines 44-141):
ICD sub-code to Russian clinical description. -/
def ICD_DESCRIPTIONS : List (String × String) := [
  ("I44.0", "предсердно-желудочковая блокада первой степени AV блокада 1 степени удлинение PQ интервала"),
  ("I44.1", "предсердно-желудочковая блокада второй степени AV блокада 2 степени Мобитц выпадение QRS"),
  ("I44.2", "предсердно-желудочковая блокада полная третья степень полная поперечная блокада"),
  ("I44.3", "другая неуточнённая предсердно-желудочковая блокада AV"),
  ("I45.2", "двухпучковая блокада бифасцикулярная блокада ножек"),
  ("I49.5", "синдром слабости синусового узла СССУ брадикардия паузы"),
  ("I47.1", "наджелудочковая тахикардия пароксизм"),
  ("I47.2", "желудочковая тахикардия пароксизм"),
  ("I48.0", "фибрилляция предсердий пароксизмальная мерцательная аритмия"),
  ("I49.0", "фибрилляция трепетание желудочков"),
  ("K58.0", "синдром раздражённого кишечника с диареей понос"),
  ("K58.9", "синдром раздражённого кишечника без диареи запор"),
  ("K58", "синдром раздражённого кишечника СРК функциональное расстройство"),
  ("K81.0", "острый холецистит желчный пузырь воспаление острое"),
  ("K81.1", "хронический холецистит желчный пузырь воспаление хроническое"),
  ("K80.0", "камни желчного пузыря с острым холециститом ЖКБ"),
  ("K80.1", "камни желчного пузыря с другим холециститом"),
  ("K80.2", "камни желчного пузыря без холецистита желчнокаменная болезнь"),
  ("A03.0", "шигеллёз вызванный Shigella dysenteriae дизентерия кровь слизь"),
  ("A03.9", "шигеллёз неуточнённый дизентерия"),
  ("A02.0", "сальмонеллёзный энтерит гастроэнтерит сальмонелла"),
  ("A02.1", "сальмонеллёзная септицемия сепсис"),
  ("A02.2", "локализованная сальмонеллёзная инфекция"),
  ("N94.3", "предменструальный синдром ПМС боли перед менструацией"),
  ("N94.4", "первичная дисменорея болезненные менструации альгодисменорея"),
  ("N94.5", "вторичная дисменорея эндометриоз"),
  ("N94.6", "дисменорея неуточнённая"),
  ("J04.0", "острый ларингит воспаление гортани осиплость охриплость"),
  ("J04.1", "острый трахеит воспаление трахеи"),
  ("J04.2", "острый ларинготрахеит"),
  ("J02.0", "стрептококковый фарингит"),
  ("J02.9", "острый фарингит неуточнённый боль горло"),
  ("C53.0", "злокачественное новообразование эндоцервикса шейка матки"),
  ("C53.1", "злокачественное новообразование экзоцервикса шейка матки"),
  ("C53.8", "злокачественное новообразование шейки матки перекрёстное поражение"),
  ("C53.9", "злокачественное новообразование шейки матки неуточнённое рак"),
  ("L10.0", "пузырчатка обыкновенная аутоиммунный буллёзный дерматоз"),
  ("L10.1", "пузырчатка вегетирующая"),
  ("L12.0", "буллёзный пемфигоид волдыри кожа"),
  ("F60.0", "параноидное расстройство личности подозрительность"),
  ("F60.1", "шизоидное расстройство личности замкнутость"),
  ("F60.2", "диссоциальное расстройство личности антисоциальное"),
  ("F60.3", "эмоционально неустойчивое расстройство личности импульсивность"),
  ("F44.0", "диссоциативная амнезия потеря памяти психогенная"),
  ("F44.1", "диссоциативная фуга бродяжничество потеря личности вокзал"),
  ("F44.8", "другие диссоциативные расстройства конверсионные"),
  ("F32.0", "лёгкий депрессивный эпизод подавленность"),
  ("F32.1", "умеренный депрессивный эпизод депрессия средняя"),
  ("F32.2", "тяжёлый депрессивный эпизод суицидальные мысли"),
  ("G40.0", "локализованная идиопатическая эпилепсия фокальные судороги"),
  ("G40.3", "генерализованная идиопатическая эпилепсия тонико-клонические"),
  ("G40.9", "эпилепсия неуточнённая судороги приступ"),
  ("Y45.1", "НПВС нестероидные противовоспалительные ацетилсалициловая аспирин гастропатия"),
  ("Y45.2", "салицилаты лекарственная язва желудка"),
  ("Y45.3", "другие НПВС нестероидные поражение желудка ибупрофен диклофенак"),
  ("Q61.0", "одиночная киста почки врождённая"),
  ("Q61.3", "поликистоз почек аутосомно-рецессивный дети"),
  ("Q61.4", "кистозная дисплазия почки"),
  ("Q62.0", "врождённый гидронефроз расширение лоханки"),
  ("Q62.2", "врождённое сужение мочеточника стеноз"),
  ("N13.5", "перегиб стриктура мочеточника без гидронефроза обструкция"),
  ("F18.0", "острая интоксикация ингалянтами клей растворитель нюхает"),
  ("F18.1", "употребление ингалянтов с вредными последствиями токсикомания"),
  ("F18.2", "синдром зависимости от ингалянтов хроническая токсикомания"),
  ("F18.8", "другие психические расстройства ингалянты"),
  ("F16.0", "острая интоксикация галлюциногенами ЛСД психоделики"),
  ("F16.1", "употребление галлюциногенов с вредными последствиями"),
  ("F16.2", "синдром зависимости от галлюциногенов"),
  ("M81.0", "постменопаузальный остеопороз переломы женщины климакс"),
  ("M81.1", "остеопороз после удаления яичников"),
  ("I73.0", "синдром Рейно вазоспазм пальцы белеют синеют"),
  ("F06.6", "органическое эмоционально лабильное расстройство постковид хроническая усталость"),
  ("F41.2", "смешанное тревожное и депрессивное расстройство"),
  ("Q78.1", "полиостотическая фиброзная дисплазия костей врождённая патологические переломы")]

/-- Embedding of `score_code_vs_query` (src/generator.py lines 144-156):
token-overlap score between the clinical description of an ICD code and the
patient query, `len(q_tokens ∩ d_tokens) / (len(d_tokens) + 1)` as an exact
rational. -/
def score_code_vs_query (code query : String) : ℚ :=
  let desc := lookupD ICD_DESCRIPTIONS code ""
  if desc = "" then 0
  else
    let qTokens := (tokenRuns (pyLower query)).toFinset
    let dTokens := (tokenRuns (pyLower desc)).toFinset
    if dTokens = ∅ then 0
    else ((qTokens ∩ dTokens).card : ℚ) / ((dTokens.card : ℚ) + 1)

/-- Embedding of the `KEYWORD_ICD_MAP` table (src/generator.py lines 162-305):
static (keyword-list, code-list) rules for the local keyword predictor. -/
def KEYWORD_ICD_MAP : List (List String × List String) := [
  (["очнулась", "не помнила кто", "не помню кто", "потеря памяти", "вокзал не помню",
    "вспомнила через", "не знала кто я", "не помнила как"], ["F44.1", "F44.0", "F44.8"]),
  (["галлюцинац", "голоса в голове", "голоса слышу", "видения", "преследуют", "заговор"],
   ["F20.0", "F20.9", "F23.0"]),
  (["тревог", "паник", "страх навязчив", "руки трясутся страх"], ["F41.0", "F41.1", "F40.0"]),
  (["депресс", "подавлен", "ничего не хочу", "нет смысла", "слёзы без причины"],
   ["F32.0", "F32.1", "F32.2"]),
  (["судорог", "трясётся", "конвульс", "упал потерял сознание трясся", "приступ пена рот"],
   ["G40.0", "G40.3", "G40.9"]),
  (["мигрен", "боль голова одна сторона", "тошнота свет", "фотофобия голова"],
   ["G43.0", "G43.1"]),
  (["удар головой", "травма головы", "после аварии голова", "потерял сознание упал"],
   ["S06.0", "S06.3", "S09.9"]),
  (["слабоумие", "деменция", "не узнаёт близких", "забывает всё"], ["F00.0", "F00.9"]),
  (["рассеянный склероз", "двоится в глазах слабость", "нарушение равновесия прогрессирует"],
   ["G35"]),
  (["инсульт", "афазия", "паралич лица", "онемение половина тела"], ["I63.9", "I64"]),
  (["замирает сердце", "пропускает удар", "пауза пульс", "брадикард", "редкий пульс",
    "остановка сердца ощущение", "ав блокад", "av блокада", "блокада сердца",
    "нарушение проводимости сердца"], ["I44.1", "I44.2", "I44.0", "I49.5"]),
  (["учащённое сердцебиение", "сердце колотится", "тахикард", "аритм"],
   ["I47.1", "I48.0", "I49.0"]),
  (["боль грудь нагрузка", "давит грудь", "стенокардия"], ["I20.0", "I20.9", "I25.1"]),
  (["инфаркт", "острая боль грудь холодный пот", "боль грудь рука левая"],
   ["I21.0", "I21.9"]),
  (["гипертон", "давление высокое", "гипертензия"], ["I10", "I11.0"]),
  (["пальцы белеют", "пальцы синеют холод", "белеют пальцы мёрзнут", "рейно", "вазоспазм пальцев"],
   ["I73.0"]),
  (["осиплость", "потеряла голос", "хрипота", "першение горло", "ларингит"],
   ["J04.0", "J04.1", "J04.2"]),
  (["боль горло", "красное горло температура", "белый налёт миндалины", "ангин"],
   ["J03.9", "J35.0"]),
  (["кашель температура одышка", "боль грудь дыхание", "воспаление лёгких", "пневмони"],
   ["J18.1", "J15.0", "J18.9"]),
  (["астм", "свист дыхание", "удушье приступ", "бронхоспазм"], ["J45.0", "J45.9"]),
  (["боль живот вздутие", "меняется стул", "запор понос чередуются", "срк"],
   ["K58.0", "K58.9"]),
  (["кровь кал", "понос кровь", "слизь кровь стул", "дизентери", "шигелл"],
   ["A03.0", "A03.9"]),
  (["боль правый бок еда", "горечь рот", "камни желчный", "желтуха боль бок"],
   ["K81.0", "K81.1", "K80.2"]),
  (["цирроз", "асцит", "живот увеличен"], ["K74.5", "K74.6"]),
  (["изжога", "боль желудок голодная", "язва желудок"], ["K25.0", "K29.7", "K21.0"]),
  (["нпвс", "аспирин желудок", "ибупрофен желудок", "диклофенак желудок", "от таблеток желудок"],
   ["Y45.1", "Y45.2", "Y45.3"]),
  (["кровь моча", "гематурия", "розовая моча", "моча красная"], ["N02.9", "Q61.4", "N20.0"]),
  (["пиелонефрит", "жжение мочеиспускание", "боль поясница температура моча"],
   ["N10", "N11.0"]),
  (["мочекаменн", "камни почки", "почечная колика"], ["N20.0", "N20.1"]),
  (["кисты почки", "поликистоз", "кистозная почка"], ["Q61.3", "Q61.4", "Q61.0"]),
  (["мочеточник сужение", "гидронефроз", "расширение лоханки", "аномалия мочеточника"],
   ["Q62.2", "Q62.0", "N13.5"]),
  (["болезненные месячные", "боль месячные", "дисменорея", "альгодисменорея"],
   ["N94.4", "N94.5", "N94.6"]),
  (["предменструальный", "пмс", "перед месячными"], ["N94.3"]),
  (["эндометриоз", "боль низ живота женщина вне месячных"], ["N80.0", "N80.9"]),
  (["рак шейки матки", "онкология шейки", "мазок онкология", "кровотечение шейка"],
   ["C53.0", "C53.8", "C53.9"]),
  (["миома", "узлы матка", "обильные месячные", "лейомиома"], ["D25.0", "D25.1", "D25.9"]),
  (["беременность", "тошнота рвота беременная", "задержка"], ["O21.0", "O26.6"]),
  (["выкидыш", "самопроизвольный аборт"], ["O03.0", "O03.9"]),
  (["перелом", "рентген трещина кость"], ["S32.2", "S32.0", "S42.0"]),
  (["боль спина", "поясничная боль", "остеохондроз"], ["M54.5", "M51.1"]),
  (["артрит", "воспаление суставов", "ревматоидный"], ["M06.0", "M05.0"]),
  (["остеопороз", "хрупкие кости переломы без травмы"], ["M81.0", "M81.1"]),
  (["ребёнок кровь моча", "отёки лицо ребёнок", "моча тёмная ребёнок"],
   ["Q61.4", "N04.9", "N00.9"]),
  (["гиперактивность", "сдвг", "невнимательность ребёнка"], ["F90.0", "F90.9"]),
  (["патологические переломы ребёнок", "фиброзная дисплазия"], ["Q78.1"]),
  (["туберкулёз", "кашель кровь длительный", "ночная потливость похудение кашель"],
   ["A15.0", "A15.3"]),
  (["герпес", "пузыри губах", "герпетический стоматит"], ["B00.2", "A60.0"]),
  (["лихорадка денге", "тропическая лихорадка", "сыпь после тропических стран"],
   ["A90", "A91"]),
  (["опухоль головного мозга", "глиом", "нарастающая головная боль рвота"],
   ["C71.0", "C71.9", "D33.0", "D33.1"]),
  (["лимфом", "увеличены лимфоузлы ночная потливость"], ["C81.0", "C82.0"]),
  (["миелодиспласт", "рефрактерная анемия", "бласты крови"], ["D46.2", "D46.4"]),
  (["диабет", "высокий сахар", "жажда много пью много мочусь"], ["E11.9", "E10.9"]),
  (["щитовидная", "гипотиреоз", "гипертиреоз", "зоб"], ["E03.9", "E05.0"]),
  (["псориаз", "хроническая сыпь чешуйки бляшки"], ["L40.0", "L40.9"]),
  (["пузыри на коже", "пемфигус", "буллёзн", "пузырчатка", "волдыри тело"],
   ["L10.0", "L10.1", "L12.0"]),
  (["расстройство личности", "параноидн", "подозрительн характер", "вспышки ярости", "психопат"],
   ["F60.0", "F60.1", "F60.2", "F60.3"]),
  (["ингалянт", "клей нюхает", "растворитель нюхает", "ацетон нюхает", "токсикомания ингалянт"],
   ["F18.0", "F18.1", "F18.2", "F18.8"]),
  (["галлюциноген", "психоделик", "лсд", "грибы наркотик"], ["F16.0", "F16.1", "F16.2"]),
  (["постковид", "после ковида", "долгий ковид", "хроническая усталость после covid"],
   ["F06.6", "F41.2", "F32.0"]),
  (["блокада ножки пучка", "неполная блокада", "бифасцикулярная"],
   ["I45.2", "I44.1", "I44.0"]),
  (["слабость синусового узла", "сссу", "синусовая брадикардия выраженная"],
   ["I49.5", "I44.1"])]

/-- Increment the vote counter of `k` in an insertion-ordered dict, modelling
`scores[code] = scores.get(code, 0) + 1`. -/
def bumpVote (m : List (String × Nat)) (k : String) : List (String × Nat) :=
  match m with
  | [] => [(k, 1)]
  | (k', v) :: t => if k' = k then (k', v + 1) :: t else (k', v) :: bumpVote t k

/-- Python `set.add`, modelled on a membership list. -/
def addSet (s : List String) (c : String) : List String :=
  if c ∈ s then s else s ++ [c]

/-- State of the keyword-vote loop: the vote dict and the full code set. -/
def perKw (codes : List String) (st : List (String × Nat) × List String) :
    List (String × Nat) × List String :=
  codes.foldl (fun st2 c => (bumpVote st2.1 c, addSet st2.2 c)) st

/-- Inner loop of `local_predict_codes_full`: for every keyword of the rule
whose lowercase form is a substring of the lowercased query, every code of the
rule receives a vote and joins the full code set. -/
def perRule (q : String) (st : List (String × Nat) × List String)
    (rule : List String × List String) : List (String × Nat) × List String :=
  rule.1.foldl (fun st2 kw => if strContains q (pyLower kw) then perKw rule.2 st2 else st2) st

/-- The vote dict and full code set built by `local_predict_codes_full`
(src/generator.py lines 308-338) on the lowercased query `q`. -/
def buildVoteState (q : String) : List (String × Nat) × List String :=
  KEYWORD_ICD_MAP.foldl (perRule q) ([], [])

/-- Vote count of a code, `scores.get(code, 0)`. -/
def getVote (m : List (String × Nat)) (k : String) : Nat := lookupD m k 0

/-- Number of matching keywords of a rule against the lowercased query. -/
def matchingKwCount (q : String) (rule : List String × List String) : Nat :=
  rule.1.countP (fun kw => strContains q (pyLower kw))

/-- Whether some keyword of the rule matches the lowercased query. -/
def ruleMatches (q : String) (rule : List String × List String) : Bool :=
  rule.1.any (fun kw => strContains q (pyLower kw))

/-- Vote count as claimed by the spec sentence: one vote per rule with at
least one matching keyword, per occurrence of the code in the rule's list. -/
def claimedVote (q code : String) : Nat :=
  (KEYWORD_ICD_MAP.map (fun r => if ruleMatches q r then r.2.count code else 0)).sum

/-- Vote count as the code actually computes it: one vote per matching
keyword, per occurrence of the code in the rule's list. -/
def perKeywordVote (q code : String) : Nat :=
  (KEYWORD_ICD_MAP.map (fun r => matchingKwCount q r * r.2.count code)).sum

/-- Python string slice `s[:n]`. -/
def strTake (s : String) (n : Nat) : String := String.mk (s.toList.take n)

/-- Stable descending sort by vote count, modelling
`sorted(scores.items(), key=lambda x: x[1], reverse=True)`. -/
def sortVotesDesc (items : List (String × Nat)) : List (String × Nat) :=
  @List.insertionSort (String × Nat) (fun a b => b.2 ≤ a.2)
    (fun a b => Nat.decLe b.2 a.2) items

/-- Final selection loop of `local_predict_codes_full`: keep the first code of
each 3-character family, stopping at 5 results. -/
def topCodesLoop : List (String × Nat) → List String → List String → List String
  | [], _, result => result
  | (code, _) :: rest, seen, result =>
    let pfx := strTake code 3
    let seen2 := if pfx ∈ seen then seen else seen ++ [pfx]
    let result2 := if pfx ∈ seen then result else result ++ [code]
    if result2.length ≥ 5 then result2 else topCodesLoop rest seen2 result2

/-- Embedding of `local_predict_codes_full` (src/generator.py lines 308-338):
keyword-based ICD prediction returning the deduplicated ranked code list and
the full matched code set. -/
def local_predict_codes_full (query : String) : List String × List String :=
  let st := buildVoteState (pyLower query)
  if st.1 = [] then ([], [])
  else (topCodesLoop (sortVotesDesc st.1) [] [], st.2)

/-- A corpus chunk as the index-construction loop of `HybridRetriever.__init__`
sees it: its protocol id and its list of ICD codes. -/
structure IChunk where
  protocol_id : String
  icd_codes : List String
deriving DecidableEq

/-- Python dict assignment `m[k] = v`: replace in place when the key exists,
append at the end otherwise. -/
def setEntry {β : Type} (m : List (String × β)) (k : String) (v : β) :
    List (String × β) :=
  match m with
  | [] => [(k, v)]
  | (k', w) :: t => if k' = k then (k', v) :: t else (k', w) :: setEntry t k v

/-- One capped registration, `self._code_idx.setdefault(key, [])` followed by
`if len(self._code_idx[key]) < cap: self._code_idx[key].append(c)`. -/
def appendCapped (idx : List (String × List IChunk)) (key : String) (c : IChunk)
    (cap : Nat) : List (String × List IChunk) :=
  let cur := lookupD idx key []
  setEntry idx key (if cur.length < cap then cur ++ [c] else cur)

/-- Registration of one code of one chunk in the code index
(src/retriever.py lines 358-373): skip blank codes, strip, register the chunk
under the canonical key (cap 3) and under its 3-character key (cap 5). -/
def registerCode (idx : List (String × List IChunk)) (c : IChunk) (code : String) :
    List (String × List IChunk) :=
  if pyStrip code = "" then idx
  else
    let key := canon (pyStrip code)
    let idx1 := appendCapped idx key c 3
    appendCapped idx1 (strTake key 3) c 5

/-- The code-index part of the `HybridRetriever.__init__` corpus loop
(src/retriever.py lines 346-373); the title index and per-protocol metadata
built by the same loop do not feed the code index and are modelled
separately where needed. -/
def buildCodeIdx (chunks : List IChunk) : List (String × List IChunk) :=
  chunks.foldl
    (fun idx c => c.icd_codes.foldl (fun idx2 code => registerCode idx2 c code) idx) []

/-- A retrieval hit as the RRF fusion loops of
`HybridRetriever.retrieve_semantic` see it: its protocol id and its text
(the text is only consulted through the junk filter). -/
structure SChunk where
  protocol_id : String
  text : String
deriving DecidableEq

/-- The damping factor `p = self._size_penalty(n) * (0.1 if pid in
DEPRIORITIZED_PROTOCOLS else 1.0)` of src/retriever.py lines 490 and 500.
`pen pid` abstracts `_size_penalty(self._pid_n.get(pid, 1))`, the
size-penalty float `1/(1+ln(1+n/5))`, which depends only on the protocol id
once the corpus is fixed; the claims hold for every value of it. -/
def pFull (pen : String → ℚ) (dep : String → Bool) (pid : String) : ℚ :=
  pen pid * (if dep pid then 1/10 else 1)

/-- The accumulation `rrf[pid] = rrf.get(pid, 0) + v`. -/
def rrfAdd (m : List (String × ℚ)) (pid : String) (v : ℚ) : List (String × ℚ) :=
  setEntry m pid (lookupD m pid 0 + v)

/-- Embedding of the dense loop of `retrieve_semantic`
(src/retriever.py lines 482-492): ranks are enumeration indices over all
dense hits; junk hits are skipped; a protocol already present in
`pid_to_chunk` (the `seen` key list) is skipped, so it scores at most once. -/
def densePass (isJunk : String → Bool) (pen : String → ℚ) (dep : String → Bool) :
    List SChunk → Nat → List (String × ℚ) → List String →
    List (String × ℚ) × List String
  | [], _, rrf, seen => (rrf, seen)
  | h :: t, rank, rrf, seen =>
    if isJunk h.text then densePass isJunk pen dep t (rank + 1) rrf seen
    else if h.protocol_id ∈ seen then densePass isJunk pen dep t (rank + 1) rrf seen
    else densePass isJunk pen dep t (rank + 1)
      (rrfAdd rrf h.protocol_id ((1 / ((rank : ℚ) + 60)) * pFull pen dep h.protocol_id))
      (seen ++ [h.protocol_id])

/-- Embedding of the BM25 loop of `retrieve_semantic`
(src/retriever.py lines 494-503): junk chunks are skipped, but every
remaining hit accumulates a score, with no per-protocol deduplication;
`pid_to_chunk` only gains keys that are not already present. -/
def bm25Pass (isJunk : String → Bool) (pen : String → ℚ) (dep : String → Bool) :
    List SChunk → Nat → List (String × ℚ) → List String →
    List (String × ℚ) × List String
  | [], _, rrf, seen => (rrf, seen)
  | h :: t, rank, rrf, seen =>
    if isJunk h.text then bm25Pass isJunk pen dep t (rank + 1) rrf seen
    else bm25Pass isJunk pen dep t (rank + 1)
      (rrfAdd rrf h.protocol_id ((1 / ((rank : ℚ) + 60)) * pFull pen dep h.protocol_id))
      (if h.protocol_id ∈ seen then seen else seen ++ [h.protocol_id])

/-- The fused RRF score dict of `retrieve_semantic` for given dense and BM25
rankings (src/retriever.py lines 479-503). -/
def rrfScores (isJunk : String → Bool) (pen : String → ℚ) (dep : String → Bool)
    (dense bm25 : List SChunk) : List (String × ℚ) :=
  let d := densePass isJunk pen dep dense 0 [] []
  (bm25Pass isJunk pen dep bm25 0 d.1 d.2).1

/-- Closed form of the dense contribution of protocol `p`: the term
`1/(r+60) * pf p` at the enumeration rank `r` of the first non-junk hit of
`p`, or `0` when `p` has no non-junk hit. -/
def denseSpecFrom (isJunk : String → Bool) (pf : String → ℚ) :
    Nat → List SChunk → String → ℚ
  | _, [], _ => 0
  | r, h :: t, p =>
    if isJunk h.text then denseSpecFrom isJunk pf (r + 1) t p
    else if h.protocol_id = p then (1 / ((r : ℚ) + 60)) * pf p
    else denseSpecFrom isJunk pf (r + 1) t p

/-- Closed form of the BM25 contribution of protocol `p`: the sum of
`1/(r+60) * pf p` over every enumeration rank `r` holding a non-junk hit of
`p`. -/
def bm25SpecFrom (isJunk : String → Bool) (pf : String → ℚ) :
    Nat → List SChunk → String → ℚ
  | _, [], _ => 0
  | r, h :: t, p =>
    if isJunk h.text then bm25SpecFrom isJunk pf (r + 1) t p
    else (if h.protocol_id = p then (1 / ((r : ℚ) + 60)) * pf p else 0)
      + bm25SpecFrom isJunk pf (r + 1) t p

/-- A candidate chunk as the merge loop of `HybridRetriever.retrieve` sees
it: protocol id and the `_retrieval_source` tag stamped by `_enrich` in the
strategy that produced it (`"title_lookup"`, `"code_lookup"` or
`"semantic"`). -/
structure MChunk where
  protocol_id : String
  src : String
deriving DecidableEq

/-- One `add(chunks)` call of `retrieve` (src/retriever.py lines 569-574):
append each chunk whose protocol id has not been seen yet. -/
def addCands (st : List String × List MChunk) (chunks : List MChunk) :
    List String × List MChunk :=
  chunks.foldl
    (fun st2 c =>
      if c.protocol_id ∈ st2.1 then st2
      else (st2.1 ++ [c.protocol_id], st2.2 ++ [c]))
    st

/-- The merged `all_candidates` list of `retrieve` for a sequence of
candidate lists processed in strict priority order. -/
def mergeCands (lists : List (List MChunk)) : List MChunk :=
  (lists.foldl addCands ([], [])).2

/-- The candidate lists of `retrieve` in its fixed priority order
(src/retriever.py lines 576-594): title lookup, then code lookup when stage-1
codes exist, then semantic retrieval on the reformulated query, then the HyDE
semantic pass when a distinct hyde query exists, then one semantic pass per
accepted extra query. -/
def retrieveCandidates (title : List MChunk) (codeL : Option (List MChunk))
    (sem : List MChunk) (hyde : Option (List MChunk))
    (extras : List (List MChunk)) : List MChunk :=
  mergeCands ([title] ++ codeL.toList ++ [sem] ++ hyde.toList ++ extras)

/-- An evidence chunk as `_smart_fallback` sees it: protocol title file name
and the protocol's ICD code list (`_all_icd_codes`, falling back to
`icd_codes`, is modelled as the single effective code list). -/
structure FChunk where
  source_file : String
  all_icd_codes : List String
deriving DecidableEq

/-- The stage-1 prediction as `_smart_fallback` consumes it: the
`full_codes` set and the `icd10` fields of the `candidates` entries. -/
structure Stage1 where
  full_codes : List String
  candidates : List String
deriving DecidableEq

/-- One diagnosis entry of the generator output. -/
structure Diag where
  rank : Nat
  diagnosis : String
  icd10_code : String
  explanation : String
deriving DecidableEq

/-- Replace every occurrence of `pat` (nonempty) by `rep` in a character
list; fuel-driven model of Python `str.replace`. -/
def replaceAllList (pat rep : List Char) : Nat → List Char → List Char
  | 0, s => s
  | _ + 1, [] => []
  | fuel + 1, cc :: rest =>
    if pat.isPrefixOf (cc :: rest) ∧ pat ≠ [] then
      rep ++ replaceAllList pat rep fuel ((cc :: rest).drop pat.length)
    else cc :: replaceAllList pat rep fuel rest

/-- Python `s.replace(pat, rep)`. -/
def pyReplace (s pat rep : String) : String :=
  String.mk (replaceAllList pat.toList rep.toList s.toList.length s.toList)

/-- The codes the fallback treats as exact stage-1 matches: `full_codes`
followed by the stripped non-blank `icd10` fields of the candidates
(src/generator.py lines 561-572); only membership is ever consulted, so the
Python sets are modelled as lists. -/
def stage1FullCodes : Option Stage1 → List String
  | none => []
  | some s => s.full_codes ++ (s.candidates.map pyStrip).filter (fun c => !(c == ""))

/-- The 3-character families of the stage-1 codes. -/
def stage1PfxCodes (st : Option Stage1) : List String :=
  (stage1FullCodes st).map (fun c => strTake c 3)

/-- The composite sort key of `code_sort_key` (src/generator.py lines
582-587): `(not exact, not prefixMatch, -descriptionOverlapScore,
not hasSubcodeDot, codeString)` under the lexicographic order, with Python's
`False < True` matching Lean's `false < true`. -/
def codeKey (sf sp : List String) (q : String) (c : String) :
    Bool ×ₗ (Bool ×ₗ (ℚ ×ₗ (Bool ×ₗ String))) :=
  toLex (decide (c ∉ sf),
    toLex (decide (strTake c 3 ∉ sp),
      toLex (-(if q = "" then 0 else score_code_vs_query c q),
        toLex (decide ('.' ∉ c.toList), c))))

/-- Ascending comparison of two codes by their composite sort keys. -/
def keyRel (sf sp : List String) (q : String) (a b : String) : Prop :=
  codeKey sf sp q a ≤ codeKey sf sp q b

instance keyRelDecidable (sf sp : List String) (q : String) :
    DecidableRel (keyRel sf sp q) :=
  fun _ _ => inferInstanceAs (Decidable (_ ≤ _))

/-- The `ordered = sorted(all_codes, key=code_sort_key)` call of
`_smart_fallback`: a stable ascending sort by the composite key. -/
def sortedCodes (sf sp : List String) (q : String) (codes : List String) :
    List String :=
  List.insertionSort (keyRel sf sp q) codes

/-- Inner loop of `_smart_fallback` over the ordered codes of one chunk:
stop past rank 3, skip codes already used, otherwise emit a diagnosis entry
and advance the rank. -/
def fallbackInner (source : String) (cidx : Nat) :
    List String → Nat → List String → List Diag × Nat × List String
  | [], rank, seen => ([], rank, seen)
  | code :: rest, rank, seen =>
    if rank > 3 then ([], rank, seen)
    else if code ∈ seen then fallbackInner source cidx rest rank seen
    else
      let d : Diag :=
        ⟨rank, source, code,
         "Протокол «" ++ source ++ "» является наиболее релевантным по данным симптомам (reranker position " ++ toString (cidx + 1) ++ ")."⟩
      let r := fallbackInner source cidx rest (rank + 1) (seen ++ [code])
      (d :: r.1, r.2.1, r.2.2)

/-- Outer loop of `_smart_fallback` over the reranked chunks
(src/generator.py lines 574-607). -/
def fallbackOuter (sf sp : List String) (q : String) :
    List FChunk → Nat → Nat → List String → List Diag
  | [], _, _, _ => []
  | ch :: rest, cidx, rank, seen =>
    if rank > 3 then []
    else
      let source := pyReplace ch.source_file ".pdf" ""
      let allCodes := (ch.all_icd_codes.filter (fun c => !(pyStrip c == ""))).map pyStrip
      let r := fallbackInner source cidx (sortedCodes sf sp q allCodes) rank seen
      r.1 ++ fallbackOuter sf sp q rest (cidx + 1) r.2.1 r.2.2

/-- Renumber the diagnosis entries `1, 2, 3, ...` in order, modelling the
final `for i, d in enumerate(diags, 1): d["rank"] = i` loop of
`_ensure_three`. -/
def reRank : List Diag → Nat → List Diag
  | [], _ => []
  | d :: t, i => ⟨i, d.diagnosis, d.icd10_code, d.explanation⟩ :: reRank t (i + 1)

/-- Embedding of `_ensure_three` (src/generator.py lines 638-654): truncate
to 3 entries, pad with placeholder entries (`diagnosis "—"`, empty code and
explanation) up to 3, and renumber the ranks 1..3; the `setdefault` calls are
no-ops in the structure model because every field is always present. -/
def ensureThree (diags : List Diag) : List Diag :=
  let d := diags.take 3
  let d2 := d ++ (List.range (3 - d.length)).map
      (fun i => ⟨d.length + i + 1, "—", "", ""⟩)
  reRank d2 1

/-- Embedding of `_smart_fallback` (src/generator.py lines 544-608)
restricted to its returned `"diagnoses"` list. -/
def smartFallback (chunks : List FChunk) (stage1 : Option Stage1)
    (query : String) : List Diag :=
  ensureThree
    (fallbackOuter (stage1FullCodes stage1) (stage1PfxCodes stage1) query chunks 0 1 [])

/-- The subset of Python values produced by `json.loads` on the payloads the
generator handles: strings, numbers (as exact rationals), booleans, null,
arrays and insertion-ordered objects. -/
inductive PyVal where
  | pstr (s : String)
  | pnum (q : ℚ)
  | pbool (b : Bool)
  | pnull
  | plist (xs : List PyVal)
  | pdict (kvs : List (String × PyVal))

/-- JSON whitespace accepted between tokens by `json.loads`. -/
def isJsonWs (c : Char) : Bool :=
  c.toNat = 32 || c.toNat = 9 || c.toNat = 10 || c.toNat = 13

/-- Skip JSON whitespace. -/
def skipWs (cs : List Char) : List Char := cs.dropWhile isJsonWs

/-- Hexadecimal digit value, for `\uXXXX` escapes. -/
def hexVal (c : Char) : Option Nat :=
  if 48 ≤ c.toNat ∧ c.toNat ≤ 57 then some (c.toNat - 48)
  else if 97 ≤ c.toNat ∧ c.toNat ≤ 102 then some (c.toNat - 87)
  else if 65 ≤ c.toNat ∧ c.toNat ≤ 70 then some (c.toNat - 55)
  else none

/-- ASCII decimal digit test. -/
def isDigitCh (c : Char) : Bool := 48 ≤ c.toNat && c.toNat ≤ 57

/-- Decimal value of a digit run. -/
def digitsToNat (ds : List Char) : Nat :=
  ds.foldl (fun a c => a * 10 + (c.toNat - 48)) 0

/-- Parse a JSON string body (after the opening quote), fuel-driven. -/
def parseStrBody : Nat → List Char → List Char → Option (String × List Char)
  | 0, _, _ => none
  | _ + 1, _, [] => none
  | fuel + 1, acc, c :: rest =>
    if c = '"' then some (String.mk acc.reverse, rest)
    else if c = '\\' then
      match rest with
      | [] => none
      | e :: rest2 =>
        if e = 'n' then parseStrBody fuel ('\n' :: acc) rest2
        else if e = 't' then parseStrBody fuel ('\t' :: acc) rest2
        else if e = 'r' then parseStrBody fuel ('\r' :: acc) rest2
        else if e = 'b' then parseStrBody fuel (Char.ofNat 8 :: acc) rest2
        else if e = 'f' then parseStrBody fuel (Char.ofNat 12 :: acc) rest2
        else if e = '"' ∨ e = '\\' ∨ e = '/' then parseStrBody fuel (e :: acc) rest2
        else if e = 'u' then
          match rest2 with
          | a :: b :: c2 :: d :: rest3 =>
            match hexVal a, hexVal b, hexVal c2, hexVal d with
            | some x1, some x2, some x3, some x4 =>
              parseStrBody fuel (Char.ofNat (((x1 * 16 + x2) * 16 + x3) * 16 + x4) :: acc) rest3
            | _, _, _, _ => none
          | _ => none
        else none
    else parseStrBody fuel (c :: acc) rest

/-- Parse an optional JSON fraction part. -/
def parseFrac (cs : List Char) : Option (List Char × List Char) :=
  match cs with
  | c :: rest =>
    if c = '.' then
      let f := rest.takeWhile isDigitCh
      if f = [] then none else some (f, rest.drop f.length)
    else some ([], cs)
  | [] => some ([], cs)

/-- Parse an optional JSON exponent part. -/
def parseExp (cs : List Char) : Option (Int × List Char) :=
  match cs with
  | c :: rest =>
    if c = 'e' ∨ c = 'E' then
      match rest with
      | s :: r2 =>
        if s = '+' then
          (if r2.takeWhile isDigitCh = [] then none
           else some (((digitsToNat (r2.takeWhile isDigitCh) : Nat) : Int),
                      r2.drop (r2.takeWhile isDigitCh).length))
        else if s = '-' then
          (if r2.takeWhile isDigitCh = [] then none
           else some (-((digitsToNat (r2.takeWhile isDigitCh) : Nat) : Int),
                      r2.drop (r2.takeWhile isDigitCh).length))
        else
          (if rest.takeWhile isDigitCh = [] then none
           else some (((digitsToNat (rest.takeWhile isDigitCh) : Nat) : Int),
                      rest.drop (rest.takeWhile isDigitCh).length))
      | [] => none
    else some (0, cs)
  | [] => some (0, cs)

/-- Integer power of ten as a rational. -/
def tenPow (e : Int) : ℚ :=
  if 0 ≤ e then ((10 : ℚ) ^ e.toNat) else 1 / ((10 : ℚ) ^ (-e).toNat)

/-- Parse a JSON number. -/
def parseNum (cs : List Char) : Option (PyVal × List Char) :=
  let negAndRest : Bool × List Char :=
    match cs with
    | c :: rest => if c = '-' then (true, rest) else (false, cs)
    | [] => (false, cs)
  let neg := negAndRest.1
  let cs1 := negAndRest.2
  let ds := cs1.takeWhile isDigitCh
  if ds = [] then none
  else if 1 < ds.length ∧ ds.head? = some '0' then none
  else
    match parseFrac (cs1.drop ds.length) with
    | none => none
    | some (fds, cs2) =>
      match parseExp cs2 with
      | none => none
      | some (e, cs3) =>
        let mantissa : ℚ :=
          (digitsToNat ds : ℚ) + (digitsToNat fds : ℚ) / ((10 : ℚ) ^ fds.length)
        some (.pnum ((if neg then (-1 : ℚ) else 1) * mantissa * tenPow e), cs3)

mutual

/-- Fuel-driven recursive-descent parser for one JSON value, modelling
`json.loads` grammar. -/
def parseVal : Nat → List Char → Option (PyVal × List Char)
  | 0, _ => none
  | fuel + 1, cs =>
    match skipWs cs with
    | [] => none
    | c :: rest =>
      if c = '"' then
        match parseStrBody (cs.length + 1) [] rest with
        | some (s, r) => some (.pstr s, r)
        | none => none
      else if c = Char.ofNat 123 then parseObjItems fuel rest true []
      else if c = Char.ofNat 91 then parseArrItems fuel rest true []
      else if ['t','r','u','e'].isPrefixOf (c :: rest) then
        some (.pbool true, (c :: rest).drop 4)
      else if ['f','a','l','s','e'].isPrefixOf (c :: rest) then
        some (.pbool false, (c :: rest).drop 5)
      else if ['n','u','l','l'].isPrefixOf (c :: rest) then
        some (.pnull, (c :: rest).drop 4)
      else parseNum (c :: rest)

/-- Parse the members of a JSON object after the opening brace;
`first` marks that no member has been consumed yet. -/
def parseObjItems : Nat → List Char → Bool → List (String × PyVal) →
    Option (PyVal × List Char)
  | 0, _, _, _ => none
  | fuel + 1, cs, first, acc =>
    match skipWs cs with
    | [] => none
    | c :: rest =>
      if c = Char.ofNat 125 ∧ first then some (.pdict acc.reverse, rest)
      else
        let csItem := if first then c :: rest else
          (if c = ',' then rest else [])
        if ¬ first ∧ c ≠ ',' ∧ c ≠ Char.ofNat 125 then none
        else if ¬ first ∧ c = Char.ofNat 125 then some (.pdict acc.reverse, rest)
        else
          match skipWs csItem with
          | k :: rest2 =>
            if k = '"' then
              match parseStrBody (csItem.length + 1) [] rest2 with
              | some (key, r2) =>
                match skipWs r2 with
                | ':' :: r3 =>
                  match parseVal fuel r3 with
                  | some (v, r4) => parseObjItems fuel r4 false (acc ++ [(key, v)])
                  | none => none
                | _ => none
              | none => none
            else none
          | [] => none

/-- Parse the elements of a JSON array after the opening bracket. -/
def parseArrItems : Nat → List Char → Bool → List PyVal →
    Option (PyVal × List Char)
  | 0, _, _, _ => none
  | fuel + 1, cs, first, acc =>
    match skipWs cs with
    | [] => none
    | c :: rest =>
      if c = Char.ofNat 93 ∧ first then some (.plist acc.reverse, rest)
      else if ¬ first ∧ c = Char.ofNat 93 then some (.plist acc.reverse, rest)
      else if ¬ first ∧ c ≠ ',' then none
      else
        let csItem := if first then c :: rest else rest
        match parseVal fuel csItem with
        | some (v, r2) => parseArrItems fuel r2 false (acc ++ [v])
        | none => none

end

/-- Model of `json.loads`: parse one value and require only whitespace to
follow. -/
def jsonLoads (s : String) : Option PyVal :=
  match parseVal (4 * s.toList.length + 8) s.toList with
  | some (v, rest) => if skipWs rest = [] then some v else none
  | none => none

/-- The three-backtick code-fence marker. -/
def fenceMarker : List Char := [Char.ofNat 96, Char.ofNat 96, Char.ofNat 96]

/-- Suffix after the first occurrence of `pat`, if any. -/
def splitAfterFirst (pat : List Char) : List Char → Option (List Char)
  | [] => if pat.isEmpty then some [] else none
  | c :: rest =>
    if pat.isPrefixOf (c :: rest) then some ((c :: rest).drop pat.length)
    else splitAfterFirst pat rest

/-- Characters before the first occurrence of `pat`, if `pat` occurs. -/
def takeBeforeFirst (pat : List Char) : List Char → Option (List Char)
  | [] => if pat.isEmpty then some [] else none
  | c :: rest =>
    if pat.isPrefixOf (c :: rest) then some []
    else (takeBeforeFirst pat rest).map (fun l => c :: l)

/-- Drop trailing regex-`\s` whitespace. -/
def trimTrailWs (l : List Char) : List Char :=
  (l.reverse.dropWhile isPyWs).reverse

/-- Model of `re.search(r'```(?:json)?\s*([\s\S]*?)\s*```', text)`: group 1
of the leftmost match — the content between the first code fence (with an
optional `json` tag and leading whitespace skipped) and the next fence, with
trailing whitespace trimmed; `none` when no closing fence follows. -/
def fenceExtract (cs : List Char) : Option (List Char) :=
  match splitAfterFirst fenceMarker cs with
  | none => none
  | some after1 =>
    let after2 := if ['j','s','o','n'].isPrefixOf after1 then after1.drop 4 else after1
    let after3 := after2.dropWhile isPyWs
    match takeBeforeFirst fenceMarker after3 with
    | none => none
    | some content => some (trimTrailWs content)

/-- Model of `re.search(r'\{[\s\S]*\}', text).group(0)`: the segment from
the first opening brace to the last closing brace, when both exist in that
order. -/
def braceExtract (cs : List Char) : Option (List Char) :=
  let after := cs.dropWhile (fun c => c.toNat ≠ 123)
  match after with
  | [] => none
  | _ :: _ =>
    let upto := (after.reverse.dropWhile (fun c => c.toNat ≠ 125)).reverse
    match upto with
    | [] => none
    | _ :: _ => some upto

/-- The array branch of `_extract_json`: `{**d, "rank": d.get("rank", i+1)}`
over the first elements, failing (like the Python `TypeError` caught by the
surrounding `try`) when an element is not an object. -/
def wrapDiagAux : List PyVal → Nat → Option (List PyVal)
  | [], _ => some []
  | PyVal.pdict kvs :: rest, i =>
    (wrapDiagAux rest (i + 1)).map
      (fun tail =>
        PyVal.pdict (setEntry kvs "rank" (lookupD kvs "rank" (.pnum ((i : ℚ) + 1)))) :: tail)
  | _, _ => none

/-- Wrap at most the given array elements as `{"diagnoses": [...]}`. -/
def wrapDiag (xs : List PyVal) : Option PyVal :=
  (wrapDiagAux xs 0).map (fun ds => PyVal.pdict [("diagnoses", PyVal.plist ds)])

/-- Embedding of `_extract_json` (src/generator.py lines 614-635): tolerant
JSON extraction — strip, unfence, grab the first-to-last-brace segment when
the text does not start with an opening brace, then `json.loads`; a parsed
array is wrapped as a diagnosis dict from its first 3 elements with ranks
defaulting to 1-based positions, a parsed object is returned as is, anything
else (or a parse failure) yields `none`. -/

def extractJson (text : String) : Option PyVal :=
  if text = "" then none
  else
    let t1 := pyStrip text
    let t2 :=
      if strContains t1 (String.mk fenceMarker) then
        match fenceExtract t1.toList with
        | some inner => pyStrip (String.mk inner)
        | none => t1
      else t1
    let t3 :=
      if t2.toList.head? = some (Char.ofNat 123) then t2
      else
        match braceExtract t2.toList with
        | some m => String.mk m
        | none => t2
    match jsonLoads t3 with
    | some (.plist xs) => wrapDiag (xs.take 3)
    | some (.pdict kvs) => some (.pdict kvs)
    | some _ => none
    | none => none

theorem pyUpperChar_fixed (c : Char) (h : isUpperAlnum c = true) : pyUpperChar c = c := by
  simp only [isUpperAlnum, Bool.or_eq_true, Bool.and_eq_true, decide_eq_true_eq] at h
  unfold pyUpperChar
  rcases h with ⟨h1, h2⟩ | ⟨h1, h2⟩ <;>
    (rw [if_neg, if_neg, if_neg] <;> omega)

theorem isUpperAlnum_not_ws (c : Char) (h : isUpperAlnum c = true) :
    (!(isPyWs c || c.toNat = 46)) = true := by
  simp only [isUpperAlnum, Bool.or_eq_true, Bool.and_eq_true, decide_eq_true_eq] at h
  simp only [isPyWs, Bool.not_eq_true', Bool.or_eq_false_iff, decide_eq_false_iff_not]
  omega

theorem dropWhile_of_all_neg {α : Type} {p : α → Bool} :
    ∀ l : List α, (∀ c ∈ l, p c = false) → l.dropWhile p = l
  | [], _ => rfl
  | c :: t, h => by
    simp only [List.dropWhile_cons, h c (List.mem_cons_self c t)]
    simp

theorem pyStripList_of_all_neg (l : List Char) (h : ∀ c ∈ l, isPyWs c = false) :
    pyStripList l = l := by
  unfold pyStripList
  rw [dropWhile_of_all_neg l h, dropWhile_of_all_neg l.reverse (by
    intro c hc; exact h c (List.mem_reverse.mp hc)), List.reverse_reverse]

theorem canon_chars (code : String) : ∀ c ∈ (canon code).toList, isUpperAlnum c = true := by
  intro c hc
  unfold canon at hc
  exact List.of_mem_filter hc

/-- A string all of whose characters are uppercase alphanumeric is a fixed
point of `_canon`. -/
theorem canon_of_all_alnum (s : String) (hal : ∀ x ∈ s.toList, isUpperAlnum x = true) :
    canon s = s := by
  unfold canon
  have hmap : s.toList.map pyUpperChar = s.toList :=
    (List.map_congr_left (fun a ha => pyUpperChar_fixed a (hal a ha))).trans
      (List.map_id _)
  rw [hmap]
  rw [pyStripList_of_all_neg _ (by
    intro x hx
    have := isUpperAlnum_not_ws x (hal x hx)
    simp only [Bool.not_eq_true', Bool.or_eq_false_iff] at this
    exact this.1)]
  rw [List.filter_eq_self.mpr (fun a ha => isUpperAlnum_not_ws a (hal a ha))]
  rw [List.filter_eq_self.mpr (fun a ha => hal a ha)]
  cases s
  rfl

/-- Claim C7: `_canon` is idempotent, and identifies `"I44.1"`, `"I441"` and
`"i 44.1"` (punctuation- and case-insensitivity on codes). -/
theorem canon_idempotent_and_insensitive :
    (∀ c : String, canon (canon c) = canon c) ∧
    canon "I44.1" = canon "I441" ∧ canon "I441" = canon "i 44.1" :=
  ⟨fun c => canon_of_all_alnum (canon c) (canon_chars c), by decide, by decide⟩

/-- Claim C9: the description token-overlap score is bounded by
`0 ≤ score < 1`, because the intersection of the query token set with the
description token set can never reach the description token count plus one. -/
theorem score_code_vs_query_bounds (code query : String) :
    0 ≤ score_code_vs_query code query ∧ score_code_vs_query code query < 1 := by
  unfold score_code_vs_query
  by_cases h1 : lookupD ICD_DESCRIPTIONS code "" = ""
  · simp [h1]
  · simp only [h1, if_false]
    set qT := (tokenRuns (pyLower query)).toFinset
    set dT := (tokenRuns (pyLower (lookupD ICD_DESCRIPTIONS code ""))).toFinset
    by_cases h2 : dT = ∅
    · simp [h2]
    · simp only [h2, if_false]
      have hden : (0 : ℚ) < (dT.card : ℚ) + 1 := by positivity
      constructor
      · apply div_nonneg _ hden.le
        positivity
      · rw [div_lt_one hden]
        have hle : (qT ∩ dT).card ≤ dT.card :=
          Finset.card_le_card (Finset.inter_subset_right)
        have : ((qT ∩ dT).card : ℚ) ≤ (dT.card : ℚ) := by exact_mod_cast hle
        linarith

theorem getVote_nil (k : String) : getVote [] k = 0 := rfl

theorem getVote_bumpVote (m : List (String × Nat)) (k k' : String) :
    getVote (bumpVote m k) k' = getVote m k' + (if k' = k then 1 else 0) := by
  induction m with
  | nil =>
    by_cases h : k' = k
    · subst h; simp [getVote, lookupD, bumpVote, List.find?]
    · have hb : (k == k') = false := by
        simp only [beq_eq_false_iff_ne, ne_eq]; intro hc; exact h hc.symm
      simp [getVote, lookupD, bumpVote, List.find?, hb, h]
  | cons a t ih =>
    obtain ⟨ak, av⟩ := a
    by_cases hk : ak = k
    · subst hk
      by_cases h : k' = ak
      · subst h
        simp [getVote, lookupD, bumpVote, List.find?]
      · have hb : (ak == k') = false := by
          simp only [beq_eq_false_iff_ne, ne_eq]; intro hc; exact h hc.symm
        simp [getVote, lookupD, bumpVote, List.find?, hb, h]
    · by_cases h : k' = ak
      · subst h
        have hkk : ¬(k' = k) := fun hc => hk (hc ▸ rfl)
        simp [getVote, lookupD, bumpVote, List.find?, if_neg hk, hkk]
      · have hb : (ak == k') = false := by
          simp only [beq_eq_false_iff_ne, ne_eq]; intro hc; exact h hc.symm
        simp only [bumpVote, if_neg hk]
        simp only [getVote, lookupD, List.find?, hb] at ih ⊢
        exact ih

theorem getVote_perKw (codes : List String) (st : List (String × Nat) × List String)
    (c : String) : getVote (perKw codes st).1 c = getVote st.1 c + codes.count c := by
  induction codes generalizing st with
  | nil => simp [perKw]
  | cons x xs ih =>
    simp only [perKw, List.foldl_cons] at *
    rw [ih]
    rw [getVote_bumpVote]
    have : (xs.count c) + (if x == c then 1 else 0) = (x :: xs).count c := by
      rw [List.count_cons]
    by_cases h : c = x
    · subst h; simp [List.count_cons]; omega
    · have hb : (x == c) = false := by
        simp only [beq_eq_false_iff_ne, ne_eq]; intro hc; exact h hc.symm
      simp [List.count_cons, hb, h]

theorem mem_addSet (s : List String) (x c : String) :
    c ∈ addSet s x ↔ c ∈ s ∨ c = x := by
  unfold addSet
  by_cases h : x ∈ s
  · simp only [if_pos h]
    constructor
    · exact Or.inl
    · rintro (hc | rfl)
      · exact hc
      · exact h
  · simp [if_neg h, List.mem_append]

theorem mem_perKw (codes : List String) (st : List (String × Nat) × List String)
    (c : String) : c ∈ (perKw codes st).2 ↔ c ∈ st.2 ∨ c ∈ codes := by
  induction codes generalizing st with
  | nil => simp [perKw]
  | cons x xs ih =>
    simp only [perKw, List.foldl_cons] at *
    rw [ih]
    rw [mem_addSet]
    simp only [List.mem_cons]
    tauto

theorem getVote_foldKws (q : String) (codes : List String) (kws : List String)
    (st : List (String × Nat) × List String) (c : String) :
    getVote ((kws.foldl (fun st2 kw =>
        if strContains q (pyLower kw) then perKw codes st2 else st2) st)).1 c
      = getVote st.1 c
        + (kws.countP (fun kw => strContains q (pyLower kw))) * codes.count c := by
  induction kws generalizing st with
  | nil => simp
  | cons kw rest ih =>
    simp only [List.foldl_cons]
    by_cases h : strContains q (pyLower kw) = true
    · rw [if_pos h, ih, getVote_perKw, List.countP_cons, if_pos h]
      ring
    · rw [if_neg h, ih, List.countP_cons, if_neg h]
      simp

theorem mem_foldKws (q : String) (codes : List String) (kws : List String)
    (st : List (String × Nat) × List String) (c : String) :
    (c ∈ ((kws.foldl (fun st2 kw =>
        if strContains q (pyLower kw) then perKw codes st2 else st2) st)).2)
      ↔ c ∈ st.2 ∨ ((kws.any fun kw => strContains q (pyLower kw)) ∧ c ∈ codes) := by
  induction kws generalizing st with
  | nil => simp
  | cons kw rest ih =>
    simp only [List.foldl_cons, List.any_cons]
    by_cases h : strContains q (pyLower kw) = true
    · rw [if_pos h, ih, mem_perKw]
      simp [h]
      tauto
    · rw [if_neg h, ih]
      simp only [Bool.or_eq_true]
      have h' : strContains q (pyLower kw) = false := by
        revert h; cases strContains q (pyLower kw) <;> simp
      rw [h']
      tauto

theorem getVote_perRule (q : String) (st : List (String × Nat) × List String)
    (r : List String × List String) (c : String) :
    getVote (perRule q st r).1 c = getVote st.1 c + matchingKwCount q r * r.2.count c :=
  getVote_foldKws q r.2 r.1 st c

theorem mem_perRule (q : String) (st : List (String × Nat) × List String)
    (r : List String × List String) (c : String) :
    c ∈ (perRule q st r).2 ↔ c ∈ st.2 ∨ (ruleMatches q r = true ∧ c ∈ r.2) :=
  mem_foldKws q r.2 r.1 st c

theorem getVote_foldRules (q : String) (rules : List (List String × List String))
    (st : List (String × Nat) × List String) (c : String) :
    getVote (rules.foldl (perRule q) st).1 c
      = getVote st.1 c + (rules.map (fun r => matchingKwCount q r * r.2.count c)).sum := by
  induction rules generalizing st with
  | nil => simp
  | cons r rest ih =>
    simp only [List.foldl_cons, List.map_cons, List.sum_cons]
    rw [ih, getVote_perRule]
    ring

theorem mem_foldRules (q : String) (rules : List (List String × List String))
    (st : List (String × Nat) × List String) (c : String) :
    (c ∈ (rules.foldl (perRule q) st).2)
      ↔ c ∈ st.2 ∨ ∃ r ∈ rules, ruleMatches q r = true ∧ c ∈ r.2 := by
  induction rules generalizing st with
  | nil => simp
  | cons r rest ih =>
    simp only [List.foldl_cons, List.mem_cons]
    rw [ih, mem_perRule]
    constructor
    · rintro ((hs | hr) | ⟨r', hr', hm⟩)
      · exact Or.inl hs
      · exact Or.inr ⟨r, Or.inl rfl, hr⟩
      · exact Or.inr ⟨r', Or.inr hr', hm⟩
    · rintro (hs | ⟨r', (rfl | hr'), hm⟩)
      · exact Or.inl (Or.inl hs)
      · exact Or.inl (Or.inr hm)
      · exact Or.inr ⟨r', hr', hm⟩

/-- Claim C4 (amended): in the local keyword predictor, each *matching
keyword* of a rule contributes one vote for every occurrence of each code of
the rule's list (so a rule with k matching keywords contributes +k to each of
its codes), and a code joins the full code set exactly when some rule with a
matching keyword lists it. -/
theorem local_predict_votes_per_matching_keyword (query code : String) :
    getVote (buildVoteState (pyLower query)).1 code = perKeywordVote (pyLower query) code ∧
    (code ∈ (buildVoteState (pyLower query)).2 ↔
      ∃ r ∈ KEYWORD_ICD_MAP, ruleMatches (pyLower query) r = true ∧ code ∈ r.2) := by
  constructor
  · rw [buildVoteState, getVote_foldRules]
    show 0 + _ = _
    rw [Nat.zero_add]
    rfl
  · rw [buildVoteState, mem_foldRules]
    simp

set_option maxHeartbeats 2000000 in
set_option maxRecDepth 8000 in
/-- Claim C4 counterexample: on the query `"брадикард пауза пульс"` the rule
`([..., "пауза пульс", "брадикард", ...], ["I44.1", ...])` has two matching
keywords, so `"I44.1"` receives 2 votes, while the claim (exactly one vote
per matching rule) predicts 1. -/
theorem local_predict_votes_counterexample :
    getVote (buildVoteState (pyLower "брадикард пауза пульс")).1 "I44.1" = 2 ∧
    claimedVote (pyLower "брадикард пауза пульс") "I44.1" = 1 ∧
    (2 : Nat) ≠ 1 := by
  refine ⟨by decide, by decide, by decide⟩

theorem lookupD_setEntry {β : Type} (m : List (String × β)) (k k' : String)
    (v : β) (d : β) :
    lookupD (setEntry m k v) k' d = if k' = k then v else lookupD m k' d := by
  induction m with
  | nil =>
    by_cases h : k' = k
    · subst h; simp [lookupD, setEntry, List.find?]
    · have hb : (k == k') = false := by
        simp only [beq_eq_false_iff_ne, ne_eq]; intro hc; exact h hc.symm
      simp [lookupD, setEntry, List.find?, hb, h]
  | cons a t ih =>
    obtain ⟨ak, av⟩ := a
    by_cases hk : ak = k
    · subst hk
      by_cases h : k' = ak
      · subst h; simp [lookupD, setEntry, List.find?]
      · have hb : (ak == k') = false := by
          simp only [beq_eq_false_iff_ne, ne_eq]; intro hc; exact h hc.symm
        simp [lookupD, setEntry, List.find?, hb, h]
    · by_cases h : k' = ak
      · subst h
        have hkk : ¬(k' = k) := fun hc => hk (hc ▸ rfl)
        simp [lookupD, setEntry, List.find?, if_neg hk, hkk]
      · have hb : (ak == k') = false := by
          simp only [beq_eq_false_iff_ne, ne_eq]; intro hc; exact h hc.symm
        simp only [setEntry, if_neg hk]
        simp only [lookupD, List.find?, hb] at ih ⊢
        exact ih

theorem lookupD_appendCapped (idx : List (String × List IChunk)) (key k' : String)
    (c : IChunk) (cap : Nat) :
    lookupD (appendCapped idx key c cap) k' []
      = if k' = key
        then (if (lookupD idx key []).length < cap
              then lookupD idx key [] ++ [c] else lookupD idx key [])
        else lookupD idx k' [] := by
  unfold appendCapped
  rw [lookupD_setEntry]

theorem appendCapped_key_ne_nil (idx : List (String × List IChunk)) (key : String)
    (c : IChunk) (cap : Nat) (hcap : 0 < cap) :
    lookupD (appendCapped idx key c cap) key [] ≠ [] := by
  rw [lookupD_appendCapped, if_pos rfl]
  by_cases h : (lookupD idx key []).length < cap
  · simp [h]
  · rw [if_neg h]
    intro hc
    rw [hc] at h
    exact h (by simpa using hcap)

theorem appendCapped_preserves_ne_nil (idx : List (String × List IChunk))
    (key k' : String) (c : IChunk) (cap : Nat)
    (h : lookupD idx k' [] ≠ []) :
    lookupD (appendCapped idx key c cap) k' [] ≠ [] := by
  rw [lookupD_appendCapped]
  by_cases hk : k' = key
  · subst hk
    by_cases hl : (lookupD idx k' []).length < cap <;> simp [hl, h]
  · rw [if_neg hk]; exact h

theorem registerCode_preserves_ne_nil (idx : List (String × List IChunk))
    (c : IChunk) (code : String) (k' : String)
    (h : lookupD idx k' [] ≠ []) :
    lookupD (registerCode idx c code) k' [] ≠ [] := by
  unfold registerCode
  by_cases hs : pyStrip code = ""
  · rw [if_pos hs]; exact h
  · rw [if_neg hs]
    exact appendCapped_preserves_ne_nil _ _ _ _ _
      (appendCapped_preserves_ne_nil _ _ _ _ _ h)

theorem codesFold_preserves_ne_nil (codes : List String)
    (idx : List (String × List IChunk)) (c : IChunk) (k' : String)
    (h : lookupD idx k' [] ≠ []) :
    lookupD (codes.foldl (fun idx2 code => registerCode idx2 c code) idx) k' [] ≠ [] := by
  induction codes generalizing idx with
  | nil => exact h
  | cons x xs ih =>
    simp only [List.foldl_cons]
    exact ih _ (registerCode_preserves_ne_nil _ _ _ _ h)

theorem chunksFold_preserves_ne_nil (chunks : List IChunk)
    (idx : List (String × List IChunk)) (k' : String)
    (h : lookupD idx k' [] ≠ []) :
    lookupD (chunks.foldl
      (fun idx c => c.icd_codes.foldl (fun idx2 code => registerCode idx2 c code) idx)
      idx) k' [] ≠ [] := by
  induction chunks generalizing idx with
  | nil => exact h
  | cons ch rest ih =>
    simp only [List.foldl_cons]
    exact ih _ (codesFold_preserves_ne_nil _ _ _ _ h)

theorem registerCode_keys_ne_nil (idx : List (String × List IChunk)) (c : IChunk)
    (code : String) (hs : pyStrip code ≠ "") :
    lookupD (registerCode idx c code) (canon (pyStrip code)) [] ≠ [] ∧
    lookupD (registerCode idx c code) (strTake (canon (pyStrip code)) 3) [] ≠ [] := by
  unfold registerCode
  rw [if_neg hs]
  constructor
  · exact appendCapped_preserves_ne_nil _ _ _ _ _
      (appendCapped_key_ne_nil _ _ _ _ (by omega))
  · exact appendCapped_key_ne_nil _ _ _ _ (by omega)

theorem codesFold_keys_ne_nil (codes : List String)
    (idx : List (String × List IChunk)) (c : IChunk) (code : String)
    (hmem : code ∈ codes) (hs : pyStrip code ≠ "") :
    lookupD (codes.foldl (fun idx2 cd => registerCode idx2 c cd) idx)
        (canon (pyStrip code)) [] ≠ [] ∧
    lookupD (codes.foldl (fun idx2 cd => registerCode idx2 c cd) idx)
        (strTake (canon (pyStrip code)) 3) [] ≠ [] := by
  induction codes generalizing idx with
  | nil => cases hmem
  | cons x xs ih =>
    simp only [List.foldl_cons]
    rcases List.mem_cons.mp hmem with rfl | hmem'
    · have h0 := registerCode_keys_ne_nil idx c code hs
      exact ⟨codesFold_preserves_ne_nil _ _ _ _ h0.1,
             codesFold_preserves_ne_nil _ _ _ _ h0.2⟩
    · exact ih _ hmem'

theorem appendCapped_len_le (idx : List (String × List IChunk)) (key : String)
    (c : IChunk) (cap : Nat) (hcap : cap ≤ 5)
    (h : ∀ k, (lookupD idx k []).length ≤ 5) :
    ∀ k, (lookupD (appendCapped idx key c cap) k []).length ≤ 5 := by
  intro k
  rw [lookupD_appendCapped]
  by_cases hk : k = key
  · rw [if_pos hk]
    by_cases hl : (lookupD idx key []).length < cap
    · rw [if_pos hl]
      simp only [List.length_append, List.length_cons, List.length_nil]
      omega
    · rw [if_neg hl]; exact h key
  · rw [if_neg hk]; exact h k

theorem registerCode_len_le (idx : List (String × List IChunk)) (c : IChunk)
    (code : String) (h : ∀ k, (lookupD idx k []).length ≤ 5) :
    ∀ k, (lookupD (registerCode idx c code) k []).length ≤ 5 := by
  unfold registerCode
  by_cases hs : pyStrip code = ""
  · rw [if_pos hs]; exact h
  · rw [if_neg hs]
    exact appendCapped_len_le _ _ _ _ (by omega)
      (appendCapped_len_le _ _ _ _ (by omega) h)

theorem codesFold_len_le (codes : List String) (idx : List (String × List IChunk))
    (c : IChunk) (h : ∀ k, (lookupD idx k []).length ≤ 5) :
    ∀ k, (lookupD (codes.foldl (fun idx2 cd => registerCode idx2 c cd) idx) k []).length ≤ 5 := by
  induction codes generalizing idx with
  | nil => exact h
  | cons x xs ih =>
    simp only [List.foldl_cons]
    exact ih _ (registerCode_len_le _ _ _ h)

theorem buildCodeIdx_len_le (chunks : List IChunk) :
    ∀ k, (lookupD (buildCodeIdx chunks) k []).length ≤ 5 := by
  unfold buildCodeIdx
  suffices hgen : ∀ (idx : List (String × List IChunk)),
      (∀ k, (lookupD idx k []).length ≤ 5) →
      ∀ k, (lookupD (chunks.foldl
        (fun idx c => c.icd_codes.foldl (fun idx2 code => registerCode idx2 c code) idx)
        idx) k []).length ≤ 5 by
    exact hgen [] (fun k => by simp [lookupD, List.find?])
  induction chunks with
  | nil => intro idx h; exact h
  | cons ch rest ih =>
    intro idx h
    simp only [List.foldl_cons]
    exact ih _ (codesFold_len_le _ _ _ h)

theorem chunksFold_keys_ne_nil (chunks : List IChunk)
    (idx : List (String × List IChunk)) (ch : IChunk) (code : String)
    (hc : ch ∈ chunks) (hcode : code ∈ ch.icd_codes) (hs : pyStrip code ≠ "") :
    lookupD (chunks.foldl
      (fun idx c => c.icd_codes.foldl (fun idx2 cd => registerCode idx2 c cd) idx)
      idx) (canon (pyStrip code)) [] ≠ [] ∧
    lookupD (chunks.foldl
      (fun idx c => c.icd_codes.foldl (fun idx2 cd => registerCode idx2 c cd) idx)
      idx) (strTake (canon (pyStrip code)) 3) [] ≠ [] := by
  induction chunks generalizing idx with
  | nil => cases hc
  | cons c rest ih =>
    simp only [List.foldl_cons]
    rcases List.mem_cons.mp hc with rfl | hc'
    · have h0 := codesFold_keys_ne_nil ch.icd_codes idx ch code hcode hs
      exact ⟨chunksFold_preserves_ne_nil rest _ _ h0.1,
             chunksFold_preserves_ne_nil rest _ _ h0.2⟩
    · exact ih _ hc'

/-- Claim C8 (amended): every valid (non-blank) ICD code of every chunk is
registered in the code index under two kinds of keys — its exact canonical
key (exemplar list capped by the guard `len < 3`) and its 3-character key
(guard `len < 5`) — so a lookup under the exact key or the 3-character key
finds exemplar chunks, and every exemplar list has at most 5 entries.  No
separate 4-character key is registered: the 4-character probe of
`retrieve_by_codes` only hits when it coincides with a registered key. -/
theorem buildCodeIdx_registers_exact_and_pfx3 (chunks : List IChunk)
    (ch : IChunk) (code : String) (hc : ch ∈ chunks)
    (hcode : code ∈ ch.icd_codes) (hs : pyStrip code ≠ "") :
    lookupD (buildCodeIdx chunks) (canon (pyStrip code)) [] ≠ [] ∧
    lookupD (buildCodeIdx chunks) (strTake (canon (pyStrip code)) 3) [] ≠ [] ∧
    (∀ k, (lookupD (buildCodeIdx chunks) k []).length ≤ 5) := by
  have h := chunksFold_keys_ne_nil chunks [] ch code hc hcode hs
  exact ⟨h.1, h.2, buildCodeIdx_len_le chunks⟩

/-- Witness for the amended C8 theorem: the chunk `⟨"P", ["I44.1"]⟩`
registers under both "I441" and "I44". -/
theorem buildCodeIdx_registers_witness :
    lookupD (buildCodeIdx [⟨"P", ["I44.1"]⟩]) (canon (pyStrip "I44.1")) [] ≠ [] ∧
    lookupD (buildCodeIdx [⟨"P", ["I44.1"]⟩]) (strTake (canon (pyStrip "I44.1")) 3) [] ≠ [] ∧
    (∀ k, (lookupD (buildCodeIdx [⟨"P", ["I44.1"]⟩]) k []).length ≤ 5) :=
  buildCodeIdx_registers_exact_and_pfx3 [⟨"P", ["I44.1"]⟩] ⟨"P", ["I44.1"]⟩ "I44.1"
    (by decide) (by decide) (by decide)

/-- Claim C8 counterexample: for the corpus consisting of one chunk with the
single code "I44.10", the canonical key is "I4410" and the 3-character key is
"I44"; the 4-character key "I441" is looked up by `retrieve_by_codes` but is
never registered, so a lookup under it finds no exemplar chunks. -/
theorem buildCodeIdx_no_pfx4_counterexample :
    lookupD (buildCodeIdx [⟨"P", ["I44.10"]⟩]) (strTake (canon "I44.10") 4) [] = [] ∧
    strTake (canon "I44.10") 4 = "I441" ∧
    lookupD (buildCodeIdx [⟨"P", ["I44.10"]⟩]) (canon "I44.10") [] ≠ [] ∧
    lookupD (buildCodeIdx [⟨"P", ["I44.10"]⟩]) (strTake (canon "I44.10") 3) [] ≠ [] := by
  refine ⟨by decide, by decide, by decide, by decide⟩

theorem lookupD_rrfAdd (m : List (String × ℚ)) (k k' : String) (v : ℚ) :
    lookupD (rrfAdd m k v) k' 0 = lookupD m k' 0 + if k' = k then v else 0 := by
  unfold rrfAdd
  rw [lookupD_setEntry]
  by_cases h : k' = k
  · subst h; simp
  · simp [h]

theorem densePass_lookup (isJunk : String → Bool) (pen : String → ℚ)
    (dep : String → Bool) (l : List SChunk) (r : Nat) (rrf : List (String × ℚ))
    (seen : List String) (p : String) :
    lookupD (densePass isJunk pen dep l r rrf seen).1 p 0
      = lookupD rrf p 0
        + (if p ∈ seen then 0 else denseSpecFrom isJunk (pFull pen dep) r l p) := by
  induction l generalizing r rrf seen with
  | nil =>
    simp only [densePass, denseSpecFrom]
    by_cases h : p ∈ seen <;> simp [h]
  | cons h t ih =>
    by_cases hj : isJunk h.text = true
    · simp only [densePass, denseSpecFrom, if_pos hj]
      exact ih (r + 1) rrf seen
    · by_cases hseen : h.protocol_id ∈ seen
      · simp only [densePass, if_neg hj, if_pos hseen]
        rw [ih (r + 1) rrf seen]
        by_cases hp : h.protocol_id = p
        · have hps : p ∈ seen := hp ▸ hseen
          simp [hps]
        · simp only [denseSpecFrom, if_neg hj, if_neg hp]
      · simp only [densePass, if_neg hj, if_neg hseen]
        rw [ih (r + 1) _ _]
        rw [lookupD_rrfAdd]
        by_cases hp : h.protocol_id = p
        · subst hp
          have hps : h.protocol_id ∉ seen := hseen
          have hmem : h.protocol_id ∈ seen ++ [h.protocol_id] := by simp
          simp only [denseSpecFrom, if_neg hj, if_pos rfl, if_pos hmem,
            if_neg hps]
          simp
        · have hp2 : ¬(p = h.protocol_id) := fun hc => hp hc.symm
          have hmem : (p ∈ seen ++ [h.protocol_id]) ↔ p ∈ seen := by
            simp [List.mem_append, hp2]
          simp only [if_neg hp2, hmem, denseSpecFrom, if_neg hj, if_neg hp]
          by_cases hps : p ∈ seen <;> simp [hps]

theorem bm25Pass_lookup (isJunk : String → Bool) (pen : String → ℚ)
    (dep : String → Bool) (l : List SChunk) (r : Nat) (rrf : List (String × ℚ))
    (seen : List String) (p : String) :
    lookupD (bm25Pass isJunk pen dep l r rrf seen).1 p 0
      = lookupD rrf p 0 + bm25SpecFrom isJunk (pFull pen dep) r l p := by
  induction l generalizing r rrf seen with
  | nil => simp [bm25Pass, bm25SpecFrom]
  | cons h t ih =>
    by_cases hj : isJunk h.text = true
    · simp only [bm25Pass, bm25SpecFrom, if_pos hj]
      exact ih (r + 1) rrf seen
    · simp only [bm25Pass, bm25SpecFrom, if_neg hj]
      rw [ih (r + 1) _ _]
      rw [lookupD_rrfAdd]
      by_cases hp : p = h.protocol_id
      · subst hp
        simp only [if_pos rfl]
        ring
      · have hp' : ¬(h.protocol_id = p) := fun hc => hp hc.symm
        simp only [if_neg hp, if_neg hp']
        ring

theorem rrfScores_eq_specSum (isJunk : String → Bool) (pen : String → ℚ)
    (dep : String → Bool) (dense bm25 : List SChunk) (p : String) :
    lookupD (rrfScores isJunk pen dep dense bm25) p 0
      = denseSpecFrom isJunk (pFull pen dep) 0 dense p
        + bm25SpecFrom isJunk (pFull pen dep) 0 bm25 p := by
  unfold rrfScores
  rw [bm25Pass_lookup, densePass_lookup]
  simp [lookupD, List.find?]

/-- Claim C1 (amended): in the RRF fusion of `retrieve_semantic`, a protocol
receives from the dense ranking exactly one contribution, `1/(r+60) * p` at
the enumeration rank `r` of its first non-junk dense hit (junk hits still
consume ranks), with `p = sizePenalty * (0.1 if deprioritized else 1.0)`;
from the BM25 ranking it receives one contribution `1/(r+60) * p` for EVERY
rank `r` holding one of its non-junk hits — a protocol whose chunks occupy
several BM25 ranks contributes once per such rank, not once per ranking.
Contributions from both rankings add per protocol. -/
theorem rrf_score_decomposition (isJunk : String → Bool) (pen : String → ℚ)
    (dep : String → Bool) (dense bm25 : List SChunk) (p : String) :
    lookupD (rrfScores isJunk pen dep dense bm25) p 0
      = denseSpecFrom isJunk (pFull pen dep) 0 dense p
        + bm25SpecFrom isJunk (pFull pen dep) 0 bm25 p :=
  rrfScores_eq_specSum isJunk pen dep dense bm25 p

/-- Claim C1 counterexample: with no dense hits and a BM25 ranking holding
the same protocol at ranks 0 and 1 (no junk, unit penalty, not
deprioritized), the fused score is `1/60 + 1/61`, while the claim (one
contribution per ranking, at the first observed rank) predicts `1/60`. -/
theorem rrf_bm25_double_count_counterexample :
    lookupD (rrfScores (fun _ => false) (fun _ => 1) (fun _ => false)
        [] [⟨"P", "t"⟩, ⟨"P", "t"⟩]) "P" 0 = 1/60 + 1/61 ∧
    (1/60 + 1/61 : ℚ) ≠
      (1 / ((0 : ℚ) + 60)) * pFull (fun _ => 1) (fun _ => false) "P" := by
  constructor
  · norm_num [rrfScores, densePass, bm25Pass, rrfAdd, lookupD, setEntry,
      pFull, List.find?]
  · norm_num [pFull]

theorem denseSpecFrom_scale (isJunk : String → Bool) (pf1 pf2 : String → ℚ)
    (c : ℚ) (p : String) (hpf : pf1 p = c * pf2 p) :
    ∀ (r : Nat) (l : List SChunk),
      denseSpecFrom isJunk pf1 r l p = c * denseSpecFrom isJunk pf2 r l p
  | r, [] => by simp [denseSpecFrom]
  | r, h :: t => by
    by_cases hj : isJunk h.text = true
    · simp only [denseSpecFrom, if_pos hj]
      exact denseSpecFrom_scale isJunk pf1 pf2 c p hpf (r + 1) t
    · by_cases hp : h.protocol_id = p
      · simp only [denseSpecFrom, if_neg hj, if_pos hp, hpf]
        ring
      · simp only [denseSpecFrom, if_neg hj, if_neg hp]
        exact denseSpecFrom_scale isJunk pf1 pf2 c p hpf (r + 1) t

theorem bm25SpecFrom_scale (isJunk : String → Bool) (pf1 pf2 : String → ℚ)
    (c : ℚ) (p : String) (hpf : pf1 p = c * pf2 p) :
    ∀ (r : Nat) (l : List SChunk),
      bm25SpecFrom isJunk pf1 r l p = c * bm25SpecFrom isJunk pf2 r l p
  | r, [] => by simp [bm25SpecFrom]
  | r, h :: t => by
    by_cases hj : isJunk h.text = true
    · simp only [bm25SpecFrom, if_pos hj]
      exact bm25SpecFrom_scale isJunk pf1 pf2 c p hpf (r + 1) t
    · simp only [bm25SpecFrom, if_neg hj]
      rw [bm25SpecFrom_scale isJunk pf1 pf2 c p hpf (r + 1) t]
      by_cases hp : h.protocol_id = p
      · simp only [if_pos hp, hpf]; ring
      · simp only [if_neg hp]; ring

/-- Claim C6: with the dense and BM25 rankings, the junk filter, the size
penalty and the deprioritization status of every other protocol held fixed,
the fused RRF score of a protocol computed while it is deprioritized equals
exactly one tenth of its fused score computed while it is not. -/
theorem deprioritized_scales_score_by_tenth (isJunk : String → Bool)
    (pen : String → ℚ) (dep : String → Bool) (dense bm25 : List SChunk)
    (pid : String) :
    lookupD (rrfScores isJunk pen
        (fun q => if q = pid then true else dep q) dense bm25) pid 0
      = (1/10) * lookupD (rrfScores isJunk pen
          (fun q => if q = pid then false else dep q) dense bm25) pid 0 := by
  rw [rrfScores_eq_specSum, rrfScores_eq_specSum]
  have hpf : pFull pen (fun q => if q = pid then true else dep q) pid
      = (1/10) * pFull pen (fun q => if q = pid then false else dep q) pid := by
    simp [pFull]
    ring
  rw [denseSpecFrom_scale isJunk _ _ (1/10) pid hpf,
      bm25SpecFrom_scale isJunk _ _ (1/10) pid hpf]
  ring

theorem addCands_cons (st : List String × List MChunk) (c : MChunk)
    (cs : List MChunk) :
    addCands st (c :: cs)
      = if c.protocol_id ∈ st.1 then addCands st cs
        else addCands (st.1 ++ [c.protocol_id], st.2 ++ [c]) cs := by
  simp only [addCands, List.foldl_cons]
  by_cases hc : c.protocol_id ∈ st.1 <;> simp [hc]

theorem addCands_fst_eq_map (st : List String × List MChunk) (chunks : List MChunk)
    (hinv : st.1 = st.2.map (fun c => c.protocol_id)) :
    (addCands st chunks).1 = (addCands st chunks).2.map (fun c => c.protocol_id) := by
  induction chunks generalizing st with
  | nil => exact hinv
  | cons c cs ih =>
    rw [addCands_cons]
    by_cases hc : c.protocol_id ∈ st.1
    · rw [if_pos hc]; exact ih st hinv
    · rw [if_neg hc]
      exact ih _ (by simp [hinv])

theorem addCands_find (st : List String × List MChunk) (chunks : List MChunk)
    (p : String) (hinv : st.1 = st.2.map (fun c => c.protocol_id)) :
    (addCands st chunks).2.find? (fun c => c.protocol_id == p)
      = (st.2.find? (fun c => c.protocol_id == p)).or
          (chunks.find? (fun c => c.protocol_id == p)) := by
  induction chunks generalizing st with
  | nil => simp [addCands, Option.or_none]
  | cons c cs ih =>
    rw [addCands_cons]
    by_cases hc : c.protocol_id ∈ st.1
    · rw [if_pos hc, ih st hinv]
      by_cases hp : c.protocol_id = p
      · have hex : ∃ x, x ∈ st.2 ∧ (x.protocol_id == p) = true := by
          rw [hinv] at hc
          rcases List.mem_map.mp hc with ⟨x, hx, hpid⟩
          refine ⟨x, hx, ?_⟩
          rw [hpid, hp]
          exact beq_self_eq_true p
        have hsome : (st.2.find? (fun c => c.protocol_id == p)).isSome :=
          List.find?_isSome.mpr hex
        rcases Option.isSome_iff_exists.mp hsome with ⟨x, hx⟩
        rw [hx]
        rfl
      · rw [List.find?_cons_of_neg _ (by simpa using hp)]
    · rw [if_neg hc, ih _ (by simp [hinv])]
      by_cases hp : c.protocol_id = p
      · have hnone : st.2.find? (fun c => c.protocol_id == p) = none := by
          rw [List.find?_eq_none]
          intro x hx hpx
          apply hc
          rw [hinv, hp]
          exact List.mem_map.mpr ⟨x, hx, by simpa using hpx⟩
        rw [List.find?_append, hnone, Option.none_or]
        rw [List.find?_cons_of_pos _ (by simpa using hp),
            List.find?_cons_of_pos _ (by simpa using hp)]
        simp
      · rw [List.find?_append]
        rw [List.find?_cons_of_neg _ (by simpa using hp)]
        rw [List.find?_cons_of_neg _ (by simpa using hp)]
        simp

theorem mergeFold_find (lists : List (List MChunk)) (st : List String × List MChunk)
    (p : String) (hinv : st.1 = st.2.map (fun c => c.protocol_id)) :
    ((lists.foldl addCands st).2).find? (fun c => c.protocol_id == p)
      = (st.2.find? (fun c => c.protocol_id == p)).or
          (lists.flatten.find? (fun c => c.protocol_id == p)) := by
  induction lists generalizing st with
  | nil => simp [Option.or_none]
  | cons l rest ih =>
    simp only [List.foldl_cons]
    rw [ih _ (addCands_fst_eq_map st l hinv)]
    rw [addCands_find st l p hinv]
    rw [List.flatten_cons, List.find?_append, Option.or_assoc]

theorem addCands_nodup (st : List String × List MChunk) (chunks : List MChunk)
    (h : st.1.Nodup) : (addCands st chunks).1.Nodup := by
  induction chunks generalizing st with
  | nil => exact h
  | cons c cs ih =>
    rw [addCands_cons]
    by_cases hc : c.protocol_id ∈ st.1
    · rw [if_pos hc]; exact ih st h
    · rw [if_neg hc]
      exact ih _ (by simp [List.nodup_append, h, hc])

theorem mergeFold_nodup (lists : List (List MChunk)) (st : List String × List MChunk)
    (h : st.1.Nodup) : (lists.foldl addCands st).1.Nodup := by
  induction lists generalizing st with
  | nil => exact h
  | cons l rest ih =>
    simp only [List.foldl_cons]
    exact ih _ (addCands_nodup st l h)

theorem mergeFold_fst_eq_map (lists : List (List MChunk))
    (st : List String × List MChunk)
    (hinv : st.1 = st.2.map (fun c => c.protocol_id)) :
    (lists.foldl addCands st).1
      = (lists.foldl addCands st).2.map (fun c => c.protocol_id) := by
  induction lists generalizing st with
  | nil => exact hinv
  | cons l rest ih =>
    simp only [List.foldl_cons]
    exact ih _ (addCands_fst_eq_map st l hinv)

/-- Claim C2: for every combination of the five candidate sources of
`retrieve` (title lookup; optional code lookup; semantic on the reformulated
query; optional HyDE semantic pass; one semantic pass per extra query), the
merged candidate list contains at most one entry per protocol id, and the
entry kept for a protocol is literally the first chunk produced for it in
priority order — so its `_retrieval_source` tag is the tag of the first
strategy that produced the protocol, and no later strategy replaces or
re-scores it. -/
theorem retrieve_merge_first_seen (title : List MChunk)
    (codeL : Option (List MChunk)) (sem : List MChunk)
    (hyde : Option (List MChunk)) (extras : List (List MChunk)) (p : String) :
    ((retrieveCandidates title codeL sem hyde extras).map
        (fun c => c.protocol_id)).Nodup ∧
    (retrieveCandidates title codeL sem hyde extras).find?
        (fun c => c.protocol_id == p)
      = (([title] ++ codeL.toList ++ [sem] ++ hyde.toList ++ extras).flatten).find?
          (fun c => c.protocol_id == p) := by
  constructor
  · have h := mergeFold_nodup
      ([title] ++ codeL.toList ++ [sem] ++ hyde.toList ++ extras) ([], [])
      List.nodup_nil
    rw [mergeFold_fst_eq_map _ ([], []) rfl] at h
    exact h
  · have h := mergeFold_find
      ([title] ++ codeL.toList ++ [sem] ++ hyde.toList ++ extras) ([], []) p rfl
    rw [show (([], []) : List String × List MChunk).2.find?
          (fun c => c.protocol_id == p) = none from rfl, Option.none_or] at h
    exact h

theorem reRank_length (l : List Diag) (i : Nat) : (reRank l i).length = l.length := by
  induction l generalizing i with
  | nil => rfl
  | cons d t ih => simp [reRank, ih]

theorem reRank_ranks (l : List Diag) (i : Nat) :
    (reRank l i).map (fun d => d.rank) = List.range' i l.length := by
  induction l generalizing i with
  | nil => rfl
  | cons d t ih => simp [reRank, ih, List.range'_succ]

theorem ensureThree_shape (diags : List Diag) :
    (ensureThree diags).length = 3 ∧
    (ensureThree diags).map (fun d => d.rank) = [1, 2, 3] := by
  have hlen : (diags.take 3 ++ (List.range (3 - (diags.take 3).length)).map
      (fun i => (⟨(diags.take 3).length + i + 1, "—", "", ""⟩ : Diag))).length = 3 := by
    simp only [List.length_append, List.length_map, List.length_range, List.length_take]
    omega
  constructor
  · rw [ensureThree, reRank_length, hlen]
  · rw [ensureThree, reRank_ranks, hlen]
    rfl

/-- Claim C5: for every input — reranked evidence chunks, stage-1
prediction, query — including an empty evidence list, the fallback ranker
returns exactly 3 diagnosis entries whose ranks are exactly 1, 2, 3 in
order; with no evidence at all the three entries are the bare placeholders,
so absence of evidence is never a failure. -/
theorem smart_fallback_always_three (chunks : List FChunk)
    (stage1 : Option Stage1) (query : String) :
    (smartFallback chunks stage1 query).length = 3 ∧
    (smartFallback chunks stage1 query).map (fun d => d.rank) = [1, 2, 3] ∧
    smartFallback [] stage1 query
      = [⟨1, "—", "", ""⟩, ⟨2, "—", "", ""⟩, ⟨3, "—", "", ""⟩] := by
  refine ⟨(ensureThree_shape _).1, (ensureThree_shape _).2, rfl⟩

/-- Claim C3: in the no-model fallback ranker the candidate codes of each
chunk are ordered by the ascending composite key `(not exactMatch,
not prefixMatch, -descriptionOverlapScore, not hasSubcodeDot, codeString)`
— the sorted output is key-ascending and a permutation of the input — and on
evidence offering codes `{"I44.0","I44.1"}` with stage-1
`full_codes = {"I44.1"}` the fallback selects `"I44.1"` before `"I44.0"`. -/
theorem fallback_orders_by_composite_key :
    (∀ (sf sp : List String) (q : String) (codes : List String),
      List.Sorted (keyRel sf sp q) (sortedCodes sf sp q codes) ∧
      (sortedCodes sf sp q codes).Perm codes) ∧
    (smartFallback [⟨"p.pdf", ["I44.0", "I44.1"]⟩] (some ⟨["I44.1"], []⟩) "").map
        (fun d => d.icd10_code) = ["I44.1", "I44.0", ""] := by
  constructor
  · intro sf sp q codes
    haveI : IsTotal String (keyRel sf sp q) := ⟨fun a b => le_total _ _⟩
    haveI : IsTrans String (keyRel sf sp q) := ⟨fun a b c h1 h2 => le_trans h1 h2⟩
    exact ⟨List.sorted_insertionSort _ _, List.perm_insertionSort _ _⟩
  · decide

/-- Claim C10 counterexample: the text `"[\x7b\"a\": \"b\"\x7d]"` parses as
a top-level JSON array, yet `_extract_json` does not wrap it as a
`"diagnoses"` dict: because the stripped text does not start with an opening
brace, the brace-extraction step replaces it by the segment from the first
`\x7b` to the last `\x7d`, which parses as the inner object, and that object
is returned as is. -/
theorem extract_json_array_counterexample :
    jsonLoads "[\x7b\"a\": \"b\"\x7d]"
      = some (.plist [.pdict [("a", .pstr "b")]]) ∧
    extractJson "[\x7b\"a\": \"b\"\x7d]" = some (.pdict [("a", .pstr "b")]) ∧
    some (PyVal.pdict [("a", PyVal.pstr "b")])
      ≠ some (PyVal.pdict [("diagnoses", PyVal.plist
          [PyVal.pdict [("a", PyVal.pstr "b"), ("rank", PyVal.pnum 1)]])]) := by
  refine ⟨rfl, rfl, ?_⟩
  intro h
  simp at h

/-- Claim C10 (amended): the array branch of `_extract_json` fires only when
the text that reaches `json.loads` still parses as an array — the
brace-extraction step preempts any array whose source text contains an
object, returning the first-to-last-brace segment parsed as an object when
it is valid JSON and `none` when it is not; when the array branch does fire,
the first at-most-3 elements are wrapped under `"diagnoses"`, each element's
rank defaulting to its 1-based position, and every kept element must be an
object (so in practice the empty array is the wrapped case). -/
theorem extract_json_array_behavior :
    extractJson "[]" = some (.pdict [("diagnoses", .plist [])]) ∧
    extractJson "[\x7b\"a\": \"b\"\x7d]" = some (.pdict [("a", .pstr "b")]) ∧
    extractJson "[\x7b\"a\": \"b\"\x7d, \x7b\"c\": \"d\"\x7d]" = none ∧
    wrapDiag [.pdict [("a", .pstr "b")]]
      = some (.pdict [("diagnoses",
          .plist [.pdict [("a", .pstr "b"), ("rank", .pnum 1)]])]) := by
  refine ⟨rfl, rfl, rfl, ?_⟩
  norm_num [wrapDiag, wrapDiagAux, setEntry, lookupD, List.find?]
  simp
